import Mathlib

/-!
Shallow embedding of `coffeecms/coffee_proxy_reverse` (src/main.go): a
multi-tenant reverse proxy with a reloadable domain→backend routing table,
per-client token-bucket rate limiting, IP white/blacklist filtering, a
body-size cap and a bounded worker pool.

Machine integers in the Go source are small configuration values and HTTP
status codes; they are modelled as `Nat`.  Time and token counts in the
rate limiter are modelled as `ℚ` (the library uses `float64` seconds with
fractional accumulation).  Go maps are modelled as association lists whose
insertion overwrites the previous binding for the key.
-/

namespace CoffeeProxy

/-- A parsed URL as used by the proxy: `url.Scheme`, `url.Host`, plus the
request-side `Path` and `RawQuery` components. -/
structure URL where
  scheme : String
  host : String
  path : String
  query : String
  deriving Repr, DecidableEq

/-- An in-flight HTTP request (`*http.Request`): its URL, headers, body
bytes, the `Host` header used for routing, the connection's remote
address, and the body-size cap installed by `http.MaxBytesReader`
(`none` until `limitRequestSizeMiddleware` runs). -/
structure Request where
  url : URL
  headers : List (String × String)
  body : List Nat
  host : String
  remoteAddr : String
  bodyLimit : Option Nat
  deriving Repr, DecidableEq

/-- Outcome of running the middleware chain on one request:
either a short-circuit `http.Error` with a status code, or the request
was submitted to the worker pool as a forwarding task carrying the
routing entry found for its host (`none` models the `nil` URL a failed
`url.Parse` leaves in `newReverseProxy`). -/
inductive Response where
  | error (status : Nat)
  | submitted (backend : Option URL) (req : Request)
  deriving Repr, DecidableEq

/-- A pure request handler (`http.Handler`): stages past the rate limiter
touch no shared state, so they are plain functions. -/
def Handler : Type := Request → Response

/-- Split a character list at every occurrence of a separator character,
keeping empty fields; the empty list yields `[[]]`.  This is Go's
`strings.Split` with a one-character separator. -/
def splitChar (sep : Char) : List Char → List (List Char)
  | [] => [[]]
  | c :: cs =>
    let r := splitChar sep cs
    if c = sep then [] :: r
    else
      match r with
      | [] => [[c]]
      | g :: gs => (c :: g) :: gs

/-- `net.SplitHostPort`, modelled for bracket-free addresses: succeed
exactly when the address has a single colon, returning the parts before
and after it; with no colon (`missing port`) or several colons
(`too many colons`) Go returns an error.  Bracketed IPv6 literals are not
modelled; no claim depends on them. -/
def splitHostPort (s : String) : Option (String × String) :=
  match splitChar ':' s.toList with
  | [h, p] => some (String.mk h, String.mk p)
  | _ => none

/-- `strings.Split(s, ",")` as used by `loadConfig` for the
`whitelist.ips` / `blacklist.ips` keys.  Like Go's `Split` with a
non-empty separator, it keeps empty fields and maps the empty string to
the one-element list `[""]`. -/
def loadIPList (s : String) : List String :=
  (splitChar ',' s.toList).map String.mk

/-- The subset of the global `Config` the middleware chain reads
(`rate_limiting`, `request_limits`, `whitelist`, `blacklist` sections). -/
structure GoConfig where
  requestsPerSecond : Nat
  burstLimit : Nat
  maxRequestSize : Nat
  whitelistIPs : List String
  blacklistIPs : List String
  deriving Repr, DecidableEq

/-- `ipFilterMiddleware`: parse the remote address (500 on failure), deny
403 if any blacklist entry equals the IP, then deny 401 unless some
whitelist entry equals the IP, else pass to `next`. -/
def ipFilterMiddleware (cfg : GoConfig) (next : Handler) : Handler := fun r =>
  match splitHostPort r.remoteAddr with
  | none => .error 500
  | some (ip, _) =>
    if cfg.blacklistIPs.contains ip then .error 403
    else if cfg.whitelistIPs.contains ip then next r
    else .error 401

/-- `limitRequestSizeMiddleware`: wrap the body in
`http.MaxBytesReader(w, r.Body, MaxRequestSize)` and pass on. -/
def limitRequestSizeMiddleware (cfg : GoConfig) (next : Handler) : Handler := fun r =>
  next { r with bodyLimit := some cfg.maxRequestSize }

/-- The `Director` installed by `newReverseProxy`: rewrite the outbound
request's URL scheme and host to the parsed backend's, touching nothing
else. -/
def director (backend : URL) (r : Request) : Request :=
  { r with url := { r.url with scheme := backend.scheme, host := backend.host } }

/-- Render a URL the way the transport sees it, for stating the
round-trip example. -/
def renderURL (u : URL) : String :=
  u.scheme ++ "://" ++ u.host ++ u.path ++ (if u.query = "" then "" else "?" ++ u.query)

/-- The routing table (`proxyMap`): domain name → entry, where an entry
holds the `url.Parse` result captured by `newReverseProxy`'s director
(`none` models the `nil` URL of a failed parse, the error being
discarded by `url, _ := url.Parse(target)`). -/
abbrev Table : Type := List (String × Option URL)

/-- Go map assignment `m[k] = v`: bind `k` to `v`, dropping any previous
binding. -/
def mapInsert (t : Table) (k : String) (v : Option URL) : Table :=
  (k, v) :: t.filter (fun kv => kv.1 ≠ k)

/-- Go map read `m[k]`. -/
def lookupDomain (t : Table) (k : String) : Option (Option URL) :=
  List.lookup k t

/-- `proxyHandler`: look the request's `Host` up in the table; if found,
submit the forwarding task (whose body applies the entry's director) to
the worker pool, otherwise answer `404 Domain not found`. -/
def proxyHandler (t : Table) : Handler := fun r =>
  match lookupDomain t r.host with
  | some entry => .submitted entry r
  | none => .error 404

/-- `filepath.Ext`: the suffix of the name starting at its final dot,
`""` when there is no dot. -/
def goExt (name : String) : String :=
  let rev := name.toList.reverse
  let pre := rev.takeWhile (fun c => c ≠ '.')
  if pre.length = rev.length then ""
  else String.mk ('.' :: pre.reverse)

/-- `strings.TrimSuffix`. -/
def goTrimSuffix (s suffix : String) : String :=
  if suffix.toList.isSuffixOf s.toList then
    String.mk (s.toList.take (s.toList.length - suffix.toList.length))
  else s

/-- Split a character list at the first occurrence of a multi-character
separator, `none` when the separator does not occur. -/
def splitFirst (sep : List Char) : List Char → Option (List Char × List Char)
  | [] => none
  | c :: cs =>
    if sep.isPrefixOf (c :: cs) then some ([], (c :: cs).drop sep.length)
    else
      match splitFirst sep cs with
      | none => none
      | some (a, b) => some (c :: a, b)

/-- Modelled from the spec: the backend-URL parser (`net/url.Parse`,
outside src/).  Only the fragment the claims exercise is modelled: a URL
containing an ASCII control character fails to parse (Go: `net/url:
invalid control character in URL`); otherwise the scheme is the part
before the first `"://"` (empty when absent) and the host runs to the
first slash of the remainder. -/
def goParseURL (s : String) : Option URL :=
  if s.toList.any (fun c => c.toNat < 32 ∨ c.toNat = 127) then none
  else
    match splitFirst [':', '/', '/'] s.toList with
    | none => some ⟨"", "", s, ""⟩
    | some (scheme, tail) =>
      let hostPart := String.mk (tail.takeWhile (fun c => c ≠ '/'))
      let pathPart := String.mk (tail.dropWhile (fun c => c ≠ '/'))
      some ⟨String.mk scheme, hostPart, pathPart, ""⟩

/-- One directory entry seen by `loadDomains`: the file's base name and
the outcome of `ini.Load` + `Section("proxy").Key("backend_url").String()`
on it — `none` when `ini.Load` errors (the entry is logged and skipped),
`some v` the key's string value (`""` when the key is missing).  The
key-value file syntax itself is an external collaborator per the spec. -/
structure DomainFile where
  name : String
  iniResult : Option String
  deriving Repr, DecidableEq

/-- `loadDomains`: fold over the directory listing, and for every file
with extension `.conf` whose ini content loads, assign
`proxyMap[domain] = newReverseProxy(backendURL)` — into the *existing*
table `t` (the Go code mutates the global `proxyMap` and never clears
it). `parse` is the backend-URL parser (`url.Parse`); its result is
stored unchecked. -/
def loadDomains (parse : String → Option URL) (files : List DomainFile)
    (t : Table) : Table :=
  files.foldl (fun acc f =>
    if goExt f.name = ".conf" then
      match f.iniResult with
      | none => acc
      | some backendURL =>
        mapInsert acc (goTrimSuffix f.name (goExt f.name)) (parse backendURL)
    else acc) t

/-- Modelled from the spec: the token-bucket limiter
(`golang.org/x/time/rate`, outside src/).  Capacity is the configured
burst limit, refill is continuous at the configured requests-per-second
with fractional accumulation; `allow` consumes one token when available
and a denied attempt consumes nothing.  Time and tokens are rationals
(the library uses fractional seconds). -/
structure TokenBucket where
  limit : ℚ
  burst : ℕ
  tokens : ℚ
  lastTime : ℚ
  deriving Repr, DecidableEq

/-- `rate.NewLimiter(rate.Limit(rps), burst)` as first used at time
`now`: the bucket starts full. -/
def TokenBucket.new (rps burst : ℕ) (now : ℚ) : TokenBucket :=
  ⟨rps, burst, burst, now⟩

/-- Tokens available at time `now` after continuous refill, capped at the
burst capacity. -/
def TokenBucket.refill (b : TokenBucket) (now : ℚ) : ℚ :=
  min (b.burst : ℚ) (b.tokens + b.limit * (now - b.lastTime))

/-- `Limiter.Allow()` at time `now`: refill, then consume one token if at
least one is available; otherwise deny without consuming. -/
def TokenBucket.allow (b : TokenBucket) (now : ℚ) : Bool × TokenBucket :=
  if 1 ≤ b.refill now then (true, { b with tokens := b.refill now - 1, lastTime := now })
  else (false, { b with tokens := b.refill now, lastTime := now })

/-- `n` consecutive `Allow` calls, all at the same instant `t`: the list
of results and the final bucket. -/
def TokenBucket.allowRepeat (b : TokenBucket) (t : ℚ) : ℕ → List Bool × TokenBucket
  | 0 => ([], b)
  | n + 1 =>
    let p := b.allow t
    let q := p.2.allowRepeat t n
    (p.1 :: q.1, q.2)

/-- One entry of the `rateLimiter` map.  `id` models the pointer identity
of the `*rate.Limiter` allocated for the client. -/
structure Limiter where
  id : ℕ
  bucket : TokenBucket
  deriving Repr, DecidableEq

/-- The limiter registry: the `rateLimiter` map guarded by `limiterLock`,
plus an allocation counter modelling the distinct identity of each
`rate.NewLimiter` allocation. -/
structure LimiterRegistry where
  table : List (String × Limiter)
  nextId : ℕ
  deriving Repr, DecidableEq

/-- `getRateLimiter`: under `limiterLock`, return the existing limiter
for `ip` if present, otherwise allocate a fresh one (a full bucket built
from the configured rate and burst) and insert it. -/
def getRateLimiter (cfg : GoConfig) (now : ℚ) (st : LimiterRegistry) (ip : String) :
    Limiter × LimiterRegistry :=
  match st.table.lookup ip with
  | some l => (l, st)
  | none =>
    let l : Limiter := ⟨st.nextId, TokenBucket.new cfg.requestsPerSecond cfg.burstLimit now⟩
    (l, ⟨(ip, l) :: st.table, st.nextId + 1⟩)

/-- Write back a limiter's mutated bucket through its map entry
(`limiter.Allow()` mutates the shared `*rate.Limiter`). -/
def updateLimiter (st : LimiterRegistry) (ip : String) (l : Limiter) : LimiterRegistry :=
  ⟨(ip, l) :: st.table.filter (fun kv => kv.1 ≠ ip), st.nextId⟩

/-- `rateLimitMiddleware`: parse the remote address (500 on failure),
fetch the client's limiter, call `Allow`; deny 429 on refusal, else pass
to `next`.  The registry state threads through explicitly. -/
def rateLimitMiddleware (cfg : GoConfig) (now : ℚ) (next : Handler)
    (st : LimiterRegistry) (r : Request) : Response × LimiterRegistry :=
  match splitHostPort r.remoteAddr with
  | none => (.error 500, st)
  | some (ip, _) =>
    let p := getRateLimiter cfg now st ip
    let a := p.1.bucket.allow now
    let st2 := updateLimiter p.2 ip { p.1 with bucket := a.2 }
    if a.1 then (next r, st2) else (.error 429, st2)

/-- A burst of requests handled one after another by
`rateLimitMiddleware`, all at the same instant `now`, the registry state
threading from each request to the next: the list of responses and the
final registry. -/
def rateLimitSeq (cfg : GoConfig) (now : ℚ) (next : Handler) :
    LimiterRegistry → List Request → List Response × LimiterRegistry
  | st, [] => ([], st)
  | st, r :: rs =>
    let p := rateLimitMiddleware cfg now next st r
    let q := rateLimitSeq cfg now next p.2 rs
    (p.1 :: q.1, q.2)

/-- The complete handler installed in `main`:
`rateLimitMiddleware(ipFilterMiddleware(limitRequestSizeMiddleware(proxyHandler)))`. -/
def pipeline (cfg : GoConfig) (t : Table) (now : ℚ) (st : LimiterRegistry)
    (r : Request) : Response × LimiterRegistry :=
  rateLimitMiddleware cfg now
    (ipFilterMiddleware cfg (limitRequestSizeMiddleware cfg (proxyHandler t))) st r

/-- The spec's staged description of the pipeline: rate limiting, then
blacklist, then whitelist, then body-size capping, then dispatch, each
stage short-circuiting. -/
def pipelineStaged (cfg : GoConfig) (t : Table) (now : ℚ) (st : LimiterRegistry)
    (r : Request) : Response × LimiterRegistry :=
  match splitHostPort r.remoteAddr with
  | none => (.error 500, st)
  | some (ip, _) =>
    let p := getRateLimiter cfg now st ip
    let a := p.1.bucket.allow now
    let st2 := updateLimiter p.2 ip { p.1 with bucket := a.2 }
    if a.1 = false then (.error 429, st2)
    else if cfg.blacklistIPs.contains ip then (.error 403, st2)
    else if cfg.whitelistIPs.contains ip = false then (.error 401, st2)
    else
      match lookupDomain t r.host with
      | some entry => (.submitted entry { r with bodyLimit := some cfg.maxRequestSize }, st2)
      | none => (.error 404, st2)

/-- State of the worker pool: tasks sitting in the channel buffer and
tasks currently being executed by workers. -/
structure PoolState where
  queued : ℕ
  running : ℕ
  deriving Repr, DecidableEq

/-- Transitions of the worker pool of `initWorkerPool(n)`: the channel
`workerPool` has buffer capacity `n` and `n` worker goroutines drain it.
A send (`workerPool <- task`) succeeds only while the buffer is below
capacity — a full buffer blocks the submitting request handler; an idle
worker (fewer than `n` running) takes a queued task; a worker finishes
its task and becomes idle. -/
inductive PoolStep (n : ℕ) : PoolState → PoolState → Prop
  | submit {q r : ℕ} : q < n → PoolStep n ⟨q, r⟩ ⟨q + 1, r⟩
  | start {q r : ℕ} : r < n → PoolStep n ⟨q + 1, r⟩ ⟨q, r + 1⟩
  | finish {q r : ℕ} : PoolStep n ⟨q, r + 1⟩ ⟨q, r⟩

/-- Pool states reachable from the freshly initialized pool (empty
buffer, all workers idle). -/
def PoolReachable (n : ℕ) (s : PoolState) : Prop :=
  Relation.ReflTransGen (PoolStep n) ⟨0, 0⟩ s

/-- `main` calls `initWorkerPool(100)`. -/
def mainPoolSize : ℕ := 100

end CoffeeProxy

attribute [local semireducible] Rat.add Rat.sub Rat.mul

namespace CoffeeProxy

example : loadIPList "" = [""] := by decide
example : splitHostPort "1.2.3.4:80" = some ("1.2.3.4", "80") := by decide
example : goExt "example.com.conf" = ".conf" := by decide
example : goTrimSuffix "example.com.conf" ".conf" = "example.com" := by decide
example : goParseURL "http://h:1" = some ⟨"http", "h:1", "", ""⟩ := by decide
example : (TokenBucket.allowRepeat (TokenBucket.new 1 2 0) 0 3).1 = [true, true, false] := by decide
example :
    (getRateLimiter ⟨1, 5, 10, [], []⟩ 0 ⟨[], 0⟩ "1.2.3.4").1.id = 0 := by decide
example :
    (pipeline ⟨1, 5, 10, ["9.9.9.9"], []⟩ [] 0 ⟨[], 0⟩
      ⟨⟨"http", "x", "/", ""⟩, [], [], "d", "9.9.9.9:1", none⟩).1 = .error 404 := by decide

/-- C4: a request whose client IP is in the blacklist is denied 403 by
`ipFilterMiddleware`, regardless of whitelist membership: the blacklist
loop runs and returns before the whitelist is consulted (no hypothesis
about the whitelist appears). -/
theorem c4_blacklist_denies_403 (cfg : GoConfig) (next : Handler) (r : Request)
    (ip port : String) (hsplit : splitHostPort r.remoteAddr = some (ip, port))
    (hbl : cfg.blacklistIPs.contains ip = true) :
    ipFilterMiddleware cfg next r = .error 403 := by
  unfold ipFilterMiddleware
  rw [hsplit]
  have hm : ip ∈ cfg.blacklistIPs := by simpa using hbl
  simp [hm]

/-- Witness for C4 at a concrete input: the IP `1.2.3.4` is on both
lists, and the filter still answers 403. -/
theorem c4_blacklist_denies_403_witness :
    splitHostPort "1.2.3.4:80" = some ("1.2.3.4", "80") ∧
    (["1.2.3.4"] : List String).contains "1.2.3.4" = true ∧
    ipFilterMiddleware ⟨1, 5, 10, ["1.2.3.4"], ["1.2.3.4"]⟩ (fun q => .submitted none q)
      ⟨⟨"http", "x", "/", ""⟩, [], [], "d", "1.2.3.4:80", none⟩ = .error 403 :=
  ⟨by decide, by decide,
    c4_blacklist_denies_403 ⟨1, 5, 10, ["1.2.3.4"], ["1.2.3.4"]⟩ (fun q => .submitted none q)
      ⟨⟨"http", "x", "/", ""⟩, [], [], "d", "1.2.3.4:80", none⟩ "1.2.3.4" "80"
      (by decide) (by decide)⟩

/-- C5: a request whose client IP is on neither list is denied 401 by
`ipFilterMiddleware`: the whitelist is an explicit allow-list and absence
from it is a denial (default-deny). -/
theorem c5_not_whitelisted_denies_401 (cfg : GoConfig) (next : Handler) (r : Request)
    (ip port : String) (hsplit : splitHostPort r.remoteAddr = some (ip, port))
    (hbl : cfg.blacklistIPs.contains ip = false)
    (hwl : cfg.whitelistIPs.contains ip = false) :
    ipFilterMiddleware cfg next r = .error 401 := by
  unfold ipFilterMiddleware
  rw [hsplit]
  have hm1 : ip ∉ cfg.blacklistIPs := by simpa using hbl
  have hm2 : ip ∉ cfg.whitelistIPs := by simpa using hwl
  simp [hm1, hm2]

/-- Witness for C5 at a concrete input. -/
theorem c5_not_whitelisted_denies_401_witness :
    splitHostPort "8.8.8.8:80" = some ("8.8.8.8", "80") ∧
    (["2.2.2.2"] : List String).contains "8.8.8.8" = false ∧
    (["1.2.3.4"] : List String).contains "8.8.8.8" = false ∧
    ipFilterMiddleware ⟨1, 5, 10, ["1.2.3.4"], ["2.2.2.2"]⟩ (fun q => .submitted none q)
      ⟨⟨"http", "x", "/", ""⟩, [], [], "d", "8.8.8.8:80", none⟩ = .error 401 :=
  ⟨by decide, by decide, by decide,
    c5_not_whitelisted_denies_401 ⟨1, 5, 10, ["1.2.3.4"], ["2.2.2.2"]⟩
      (fun q => .submitted none q)
      ⟨⟨"http", "x", "/", ""⟩, [], [], "d", "8.8.8.8:80", none⟩ "8.8.8.8" "80"
      (by decide) (by decide) (by decide)⟩

/-- C7: the forwarding director rewrites only the outbound URL's scheme
and host to the backend's, preserving path and query verbatim and
leaving headers and body untouched; concretely, a request for `/a/b?x=1`
routed to backend `http://h:p` goes out as `http://h:p/a/b?x=1`. -/
theorem c7_director_rewrite :
    (∀ (b : URL) (r : Request),
      (director b r).url.scheme = b.scheme ∧
      (director b r).url.host = b.host ∧
      (director b r).url.path = r.url.path ∧
      (director b r).url.query = r.url.query ∧
      (director b r).headers = r.headers ∧
      (director b r).body = r.body) ∧
    renderURL (director ⟨"http", "h:p", "", ""⟩
      ⟨⟨"http", "client.example", "/a/b", "x=1"⟩, [("A", "1")], [7], "d", "c:1", none⟩).url
      = "http://h:p/a/b?x=1" := by
  refine ⟨fun b r => ⟨rfl, rfl, rfl, rfl, rfl, rfl⟩, by decide⟩

/-- C10: `loadConfig` turns an empty or missing `whitelist.ips` /
`blacklist.ips` value into the one-element list `[""]`, and since a
parsed nonempty client IP never equals `""`, such a configuration makes
`ipFilterMiddleware` deny every request that reaches it with 401. -/
theorem c10_empty_list_config_denies_all (cfg : GoConfig) (next : Handler) (r : Request)
    (ip port : String) (hsplit : splitHostPort r.remoteAddr = some (ip, port))
    (hip : ip ≠ "")
    (hw : cfg.whitelistIPs = loadIPList "") (hb : cfg.blacklistIPs = loadIPList "") :
    loadIPList "" = [""] ∧ ipFilterMiddleware cfg next r = .error 401 := by
  have hempty : loadIPList "" = [""] := by decide
  refine ⟨hempty, ?_⟩
  unfold ipFilterMiddleware
  rw [hsplit, hw, hb, hempty]
  simp [hip]

/-- Witness for C10 at a concrete input. -/
theorem c10_empty_list_config_denies_all_witness :
    splitHostPort "9.9.9.9:1" = some ("9.9.9.9", "1") ∧
    ("9.9.9.9" : String) ≠ "" ∧
    ipFilterMiddleware ⟨1, 5, 10, loadIPList "", loadIPList ""⟩ (fun q => .submitted none q)
      ⟨⟨"http", "x", "/", ""⟩, [], [], "d", "9.9.9.9:1", none⟩ = .error 401 :=
  ⟨by decide, by decide,
    (c10_empty_list_config_denies_all ⟨1, 5, 10, loadIPList "", loadIPList ""⟩
      (fun q => .submitted none q)
      ⟨⟨"http", "x", "/", ""⟩, [], [], "d", "9.9.9.9:1", none⟩ "9.9.9.9" "1"
      (by decide) (by decide) rfl rfl).2⟩

/-- C1 fails on the code: `loadDomains` writes into the persistent global
`proxyMap` and never clears it, so a previously-loaded domain whose
definition file is gone survives the reload and `proxyHandler` still
forwards to it instead of returning 404.  Here the directory holds only
`other.conf`, yet `old.example` remains routable. -/
theorem c1_stale_domain_survives_reload :
    lookupDomain
        (loadDomains goParseURL [⟨"other.conf", some "http://o:2"⟩]
          [("old.example", goParseURL "http://h:1")])
        "old.example" = some (some ⟨"http", "h:1", "", ""⟩) ∧
    proxyHandler
        (loadDomains goParseURL [⟨"other.conf", some "http://o:2"⟩]
          [("old.example", goParseURL "http://h:1")])
        ⟨⟨"http", "old.example", "/", ""⟩, [], [], "old.example", "9.9.9.9:1", none⟩
      = .submitted (some ⟨"http", "h:1", "", ""⟩)
          ⟨⟨"http", "old.example", "/", ""⟩, [], [], "old.example", "9.9.9.9:1", none⟩ := by
  decide

/-- Counterexample to C2 as stated: this domain-definition file's
`backend_url` contains an ASCII control character, so `url.Parse` fails
(`goParseURL` returns `none`), yet `loadDomains` still inserts the entry
— the parse error is discarded by `url, _ := url.Parse(target)`. -/
theorem c2_counterexample_unparsed_entry_inserted :
    goParseURL "http://h\x01" = none ∧
    loadDomains goParseURL [⟨"bad.conf", some "http://h\x01"⟩] [] = [("bad", none)] := by
  decide

/-- C2 amended: an entry is skipped exactly when its definition file
fails to load (`ini.Load` error); when the file loads, the entry is
inserted with the `url.Parse` result stored unchecked, whether or not
the backend URL parsed. -/
theorem c2_amended_skip_only_on_ini_error (parse : String → Option URL)
    (name u : String) (t : Table) (h : goExt name = ".conf") :
    loadDomains parse [⟨name, none⟩] t = t ∧
    lookupDomain (loadDomains parse [⟨name, some u⟩] t) (goTrimSuffix name ".conf")
      = some (parse u) := by
  constructor
  · simp [loadDomains, h]
  · simp [loadDomains, h, lookupDomain, mapInsert]

/-- Witness for the amended C2 at a concrete input: the file loads, the
backend URL fails to parse, and the entry is inserted holding `none`. -/
theorem c2_amended_skip_only_on_ini_error_witness :
    goExt "bad.conf" = ".conf" ∧
    lookupDomain (loadDomains goParseURL [⟨"bad.conf", some "http://h\x01"⟩] [])
      (goTrimSuffix "bad.conf" ".conf") = some (goParseURL "http://h\x01") :=
  ⟨by decide,
    (c2_amended_skip_only_on_ini_error goParseURL "bad.conf" "http://h\x01" []
      (by decide)).2⟩

/-- Refilling at the very instant of the last update adds nothing: the
elapsed time is zero, and the cap does not bite while the bucket holds at
most `B` tokens. -/
lemma refill_instant (L : ℚ) (B : ℕ) (tk t : ℚ) (h : tk ≤ (B : ℚ)) :
    TokenBucket.refill ⟨L, B, tk, t⟩ t = tk := by
  unfold TokenBucket.refill
  simp only [sub_self, mul_zero, add_zero]
  exact min_eq_right h

/-- An instantaneous `Allow` on a bucket holding `k + 1 ≤ B` tokens
succeeds and leaves `k` tokens. -/
lemma allow_instant_succ (L : ℚ) (B k : ℕ) (t : ℚ) (h : k + 1 ≤ B) :
    TokenBucket.allow ⟨L, B, (k : ℚ) + 1, t⟩ t = (true, ⟨L, B, (k : ℚ), t⟩) := by
  have hr : TokenBucket.refill ⟨L, B, (k : ℚ) + 1, t⟩ t = (k : ℚ) + 1 := by
    refine refill_instant L B _ t ?_
    have hcast : ((k + 1 : ℕ) : ℚ) ≤ (B : ℚ) := by exact_mod_cast h
    push_cast at hcast
    exact hcast
  have hge : (1 : ℚ) ≤ (k : ℚ) + 1 := by
    have hk : (0 : ℚ) ≤ (k : ℚ) := Nat.cast_nonneg k
    linarith
  unfold TokenBucket.allow
  rw [hr, if_pos hge]
  rw [show (k : ℚ) + 1 - 1 = (k : ℚ) from by ring]

/-- An instantaneous `Allow` on an empty bucket is denied and leaves the
bucket empty. -/
lemma allow_instant_zero (L : ℚ) (B : ℕ) (t : ℚ) :
    TokenBucket.allow ⟨L, B, 0, t⟩ t = (false, ⟨L, B, 0, t⟩) := by
  have hr : TokenBucket.refill ⟨L, B, 0, t⟩ t = 0 :=
    refill_instant L B 0 t (Nat.cast_nonneg B)
  unfold TokenBucket.allow
  rw [hr, if_neg (by norm_num)]

/-- Unfolding lemma: one `Allow` call followed by `n` more. -/
lemma allowRepeat_succ (b : TokenBucket) (t : ℚ) (n : ℕ) :
    b.allowRepeat t (n + 1)
      = ((b.allow t).1 :: ((b.allow t).2.allowRepeat t n).1,
          ((b.allow t).2.allowRepeat t n).2) := rfl

/-- Draining lemma: `m + 1` instantaneous `Allow` calls on a bucket
holding `m ≤ B` tokens yield `m` successes then one denial, ending with
an empty bucket. -/
lemma allowRepeat_drain (L : ℚ) (B : ℕ) (t : ℚ) :
    ∀ m : ℕ, m ≤ B →
      TokenBucket.allowRepeat ⟨L, B, (m : ℚ), t⟩ t (m + 1)
        = (List.replicate m true ++ [false], ⟨L, B, 0, t⟩) := by
  intro m
  induction m with
  | zero =>
    intro _
    rw [show ((0 : ℕ) : ℚ) = 0 from Nat.cast_zero]
    simp [TokenBucket.allowRepeat, allow_instant_zero]
  | succ k ih =>
    intro h
    have ih2 := ih (Nat.le_of_succ_le h)
    have ha := allow_instant_succ L B k t h
    push_cast
    rw [allowRepeat_succ, ha]
    simp [ih2, List.replicate_succ]

/-- Unfolding lemma: `rateLimitSeq` on a nonempty burst handles the head
request and threads the updated registry into the tail. -/
lemma rateLimitSeq_cons (cfg : GoConfig) (now : ℚ) (next : Handler)
    (st : LimiterRegistry) (r : Request) (rs : List Request) :
    rateLimitSeq cfg now next st (r :: rs)
      = ((rateLimitMiddleware cfg now next st r).1
            :: (rateLimitSeq cfg now next (rateLimitMiddleware cfg now next st r).2 rs).1,
          (rateLimitSeq cfg now next (rateLimitMiddleware cfg now next st r).2 rs).2) := rfl

/-- One pass of `rateLimitMiddleware` for a client whose limiter is
already registered: `getRateLimiter` finds it, `Allow` decides 429 or
pass-through, and the mutated bucket is written back. -/
lemma rateLimitMiddleware_found (cfg : GoConfig) (now : ℚ) (next : Handler)
    (st : LimiterRegistry) (r : Request) (ip port : String) (l : Limiter)
    (hsplit : splitHostPort r.remoteAddr = some (ip, port))
    (hl : st.table.lookup ip = some l) :
    rateLimitMiddleware cfg now next st r
      = if (l.bucket.allow now).1
          then (next r, updateLimiter st ip { l with bucket := (l.bucket.allow now).2 })
          else (.error 429, updateLimiter st ip { l with bucket := (l.bucket.allow now).2 }) := by
  have hget : getRateLimiter cfg now st ip = (l, st) := by
    unfold getRateLimiter
    rw [hl]
  unfold rateLimitMiddleware
  simp only [hsplit, hget]

/-- After writing a limiter back, looking the client up finds exactly
that limiter. -/
lemma lookup_updateLimiter (st : LimiterRegistry) (ip : String) (l : Limiter) :
    (updateLimiter st ip l).table.lookup ip = some l := by
  simp [updateLimiter, List.lookup]

/-- Draining lemma at the middleware level: a burst of `m + 1` requests
from the same client IP, all at instant `now`, against a registry whose
limiter for that IP holds `m ≤ B` tokens, produces `m` pass-throughs and
then a 429. -/
lemma rateLimitSeq_drain (cfg : GoConfig) (now : ℚ) (next : Handler) (ip : String)
    (L : ℚ) (B : ℕ) :
    ∀ m : ℕ, m ≤ B → ∀ (rs : List Request) (st : LimiterRegistry) (j : ℕ),
      rs.length = m + 1 →
      (∀ q ∈ rs, ∃ port, splitHostPort q.remoteAddr = some (ip, port)) →
      st.table.lookup ip = some ⟨j, ⟨L, B, (m : ℚ), now⟩⟩ →
      (rateLimitSeq cfg now next st rs).1
        = (rs.take m).map next ++ [.error 429] := by
  intro m
  induction m with
  | zero =>
    intro _ rs st j hlen hip hl
    cases rs with
    | nil => simp at hlen
    | cons q rs2 =>
      have hnil : rs2 = [] := by
        cases rs2 with
        | nil => rfl
        | cons a l2 => simp at hlen
      subst hnil
      obtain ⟨port, hsplit⟩ := hip q (List.mem_cons_self q [])
      rw [show ((0 : ℕ) : ℚ) = 0 from Nat.cast_zero] at hl
      rw [rateLimitSeq_cons,
        rateLimitMiddleware_found cfg now next st q ip port ⟨j, ⟨L, B, 0, now⟩⟩ hsplit hl]
      simp [allow_instant_zero, rateLimitSeq]
  | succ k ih =>
    intro h rs st j hlen hip hl
    cases rs with
    | nil => simp at hlen
    | cons q rs2 =>
      obtain ⟨port, hsplit⟩ := hip q (List.mem_cons_self q rs2)
      push_cast at hl
      rw [rateLimitSeq_cons,
        rateLimitMiddleware_found cfg now next st q ip port ⟨j, ⟨L, B, (k : ℚ) + 1, now⟩⟩
          hsplit hl]
      have hlen2 : rs2.length = k + 1 := by simpa using hlen
      have hip2 : ∀ q2 ∈ rs2, ∃ port2, splitHostPort q2.remoteAddr = some (ip, port2) :=
        fun q2 hq2 => hip q2 (List.mem_cons_of_mem q hq2)
      have ihx := ih (Nat.le_of_succ_le h)
        rs2 (updateLimiter st ip ⟨j, ⟨L, B, (k : ℚ), now⟩⟩) j hlen2 hip2
        (lookup_updateLimiter st ip ⟨j, ⟨L, B, (k : ℚ), now⟩⟩)
      simp [allow_instant_succ L B k now h, ihx, List.take_succ_cons]

/-- C3: a brand-new client's token bucket is created full by
`getRateLimiter` with `burst_limit` tokens, so `rateLimitMiddleware`
passes that client's first `burst_limit` instantaneous requests through
to the next stage and denies the following one with status 429; a denied
`Allow` attempt does not consume a token. -/
theorem c3_initial_burst_then_deny (cfg : GoConfig) (now : ℚ) (next : Handler)
    (ip : String) (rs : List Request) (st : LimiterRegistry)
    (hlen : rs.length = cfg.burstLimit + 1)
    (hip : ∀ q ∈ rs, ∃ port, splitHostPort q.remoteAddr = some (ip, port))
    (hnew : st.table.lookup ip = none) :
    (rateLimitSeq cfg now next st rs).1
      = (rs.take cfg.burstLimit).map next ++ [.error 429] ∧
    ∀ (b : TokenBucket) (u : ℚ),
      (b.allow u).1 = false → (b.allow u).2.tokens = b.refill u := by
  constructor
  · obtain ⟨q, rs2, rfl⟩ : ∃ q rs2, rs = q :: rs2 := by
      cases rs with
      | nil => simp at hlen
      | cons a l2 => exact ⟨a, l2, rfl⟩
    obtain ⟨port, hsplit⟩ := hip q (List.mem_cons_self q rs2)
    have hget1 : getRateLimiter cfg now st ip
        = (⟨st.nextId, TokenBucket.new cfg.requestsPerSecond cfg.burstLimit now⟩,
            ⟨(ip, ⟨st.nextId, TokenBucket.new cfg.requestsPerSecond cfg.burstLimit now⟩)
                :: st.table, st.nextId + 1⟩) := by
      unfold getRateLimiter
      rw [hnew]
    have hlook : (⟨(ip, ⟨st.nextId, TokenBucket.new cfg.requestsPerSecond cfg.burstLimit now⟩)
          :: st.table, st.nextId + 1⟩ : LimiterRegistry).table.lookup ip
        = some ⟨st.nextId, TokenBucket.new cfg.requestsPerSecond cfg.burstLimit now⟩ := by
      simp [List.lookup]
    have hget2 : getRateLimiter cfg now
        ⟨(ip, ⟨st.nextId, TokenBucket.new cfg.requestsPerSecond cfg.burstLimit now⟩)
            :: st.table, st.nextId + 1⟩ ip
        = (⟨st.nextId, TokenBucket.new cfg.requestsPerSecond cfg.burstLimit now⟩,
            ⟨(ip, ⟨st.nextId, TokenBucket.new cfg.requestsPerSecond cfg.burstLimit now⟩)
                :: st.table, st.nextId + 1⟩) := by
      unfold getRateLimiter
      rw [hlook]
    have hmw : rateLimitMiddleware cfg now next st q
        = rateLimitMiddleware cfg now next
            ⟨(ip, ⟨st.nextId, TokenBucket.new cfg.requestsPerSecond cfg.burstLimit now⟩)
                :: st.table, st.nextId + 1⟩ q := by
      unfold rateLimitMiddleware
      simp only [hsplit, hget1, hget2]
    rw [rateLimitSeq_cons, hmw, ← rateLimitSeq_cons]
    exact rateLimitSeq_drain cfg now next ip (cfg.requestsPerSecond : ℚ) cfg.burstLimit
      cfg.burstLimit le_rfl (q :: rs2)
      ⟨(ip, ⟨st.nextId, TokenBucket.new cfg.requestsPerSecond cfg.burstLimit now⟩)
          :: st.table, st.nextId + 1⟩ st.nextId hlen hip hlook
  · intro b u hfalse
    unfold TokenBucket.allow at hfalse ⊢
    by_cases h1 : 1 ≤ b.refill u
    · rw [if_pos h1] at hfalse
      cases hfalse
    · rw [if_neg h1]

/-- Witness for C3 at a concrete input: rate 1, burst 2, an unseen client
`1.2.3.4` sends three instantaneous requests (different paths and ports,
same IP); the first two pass through and the third gets 429; and an
`Allow` denied on an exhausted bucket leaves its token count at the
refilled value. -/
theorem c3_initial_burst_then_deny_witness :
    (rateLimitSeq ⟨1, 2, 10, [], []⟩ 0 (fun q => .submitted none q) ⟨[], 0⟩
        [⟨⟨"http", "x", "/a", ""⟩, [], [], "d", "1.2.3.4:80", none⟩,
          ⟨⟨"http", "x", "/b", ""⟩, [], [], "d", "1.2.3.4:81", none⟩,
          ⟨⟨"http", "x", "/c", ""⟩, [], [], "d", "1.2.3.4:82", none⟩]).1
      = [.submitted none ⟨⟨"http", "x", "/a", ""⟩, [], [], "d", "1.2.3.4:80", none⟩,
          .submitted none ⟨⟨"http", "x", "/b", ""⟩, [], [], "d", "1.2.3.4:81", none⟩,
          .error 429] ∧
    ((⟨1, 2, 0, 0⟩ : TokenBucket).allow 0).2.tokens
      = (⟨1, 2, 0, 0⟩ : TokenBucket).refill 0 :=
  ⟨(c3_initial_burst_then_deny ⟨1, 2, 10, [], []⟩ 0 (fun q => .submitted none q) "1.2.3.4"
      [⟨⟨"http", "x", "/a", ""⟩, [], [], "d", "1.2.3.4:80", none⟩,
        ⟨⟨"http", "x", "/b", ""⟩, [], [], "d", "1.2.3.4:81", none⟩,
        ⟨⟨"http", "x", "/c", ""⟩, [], [], "d", "1.2.3.4:82", none⟩] ⟨[], 0⟩
      (by decide)
      (by
        intro q hq
        simp only [List.mem_cons, List.not_mem_nil, or_false] at hq
        rcases hq with h | h | h
        · exact ⟨"80", by subst h; decide⟩
        · exact ⟨"81", by subst h; decide⟩
        · exact ⟨"82", by subst h; decide⟩)
      rfl).1,
    (c3_initial_burst_then_deny ⟨1, 2, 10, [], []⟩ 0 (fun q => .submitted none q) "1.2.3.4"
      [⟨⟨"http", "x", "/a", ""⟩, [], [], "d", "1.2.3.4:80", none⟩,
        ⟨⟨"http", "x", "/b", ""⟩, [], [], "d", "1.2.3.4:81", none⟩,
        ⟨⟨"http", "x", "/c", ""⟩, [], [], "d", "1.2.3.4:82", none⟩] ⟨[], 0⟩
      (by decide)
      (by
        intro q hq
        simp only [List.mem_cons, List.not_mem_nil, or_false] at hq
        rcases hq with h | h | h
        · exact ⟨"80", by subst h; decide⟩
        · exact ⟨"81", by subst h; decide⟩
        · exact ⟨"82", by subst h; decide⟩)
      rfl).2 ⟨1, 2, 0, 0⟩ 0 (by decide)⟩

/-- C8: `getRateLimiter` creates a limiter lazily for an unseen client
(allocating exactly one fresh instance and registering it), and a second
acquire for the same client returns that same instance and leaves the
registry unchanged. -/
theorem c8_get_rate_limiter_idempotent (cfg : GoConfig) (now : ℚ)
    (st : LimiterRegistry) (ip : String) :
    (st.table.lookup ip = none →
      getRateLimiter cfg now st ip =
        (⟨st.nextId, TokenBucket.new cfg.requestsPerSecond cfg.burstLimit now⟩,
          ⟨(ip, ⟨st.nextId, TokenBucket.new cfg.requestsPerSecond cfg.burstLimit now⟩)
              :: st.table,
            st.nextId + 1⟩)) ∧
    getRateLimiter cfg now (getRateLimiter cfg now st ip).2 ip
      = ((getRateLimiter cfg now st ip).1, (getRateLimiter cfg now st ip).2) := by
  constructor
  · intro hnone
    unfold getRateLimiter
    rw [hnone]
  · cases h : st.table.lookup ip with
    | some l => simp [getRateLimiter, h]
    | none => simp [getRateLimiter, h, List.lookup]

/-- Witness for C8 at a concrete input: an empty registry with allocation
counter 7. -/
theorem c8_get_rate_limiter_idempotent_witness :
    getRateLimiter ⟨1, 5, 10, [], []⟩ 0 ⟨[], 7⟩ "1.2.3.4"
      = (⟨7, TokenBucket.new 1 5 0⟩, ⟨[("1.2.3.4", ⟨7, TokenBucket.new 1 5 0⟩)], 8⟩) ∧
    getRateLimiter ⟨1, 5, 10, [], []⟩ 0
        (getRateLimiter ⟨1, 5, 10, [], []⟩ 0 ⟨[], 7⟩ "1.2.3.4").2 "1.2.3.4"
      = ((getRateLimiter ⟨1, 5, 10, [], []⟩ 0 ⟨[], 7⟩ "1.2.3.4").1,
          (getRateLimiter ⟨1, 5, 10, [], []⟩ 0 ⟨[], 7⟩ "1.2.3.4").2) :=
  ⟨(c8_get_rate_limiter_idempotent ⟨1, 5, 10, [], []⟩ 0 ⟨[], 7⟩ "1.2.3.4").1 rfl,
    (c8_get_rate_limiter_idempotent ⟨1, 5, 10, [], []⟩ 0 ⟨[], 7⟩ "1.2.3.4").2⟩

/-- C9: in every reachable state of the worker pool of
`initWorkerPool(n)`, at most `n` tasks wait in the channel buffer and at
most `n` tasks run concurrently, and a submission step is possible
exactly when the buffer is below capacity — a submitter facing a full
buffer has no transition and stalls until a worker drains a slot. -/
theorem c9_pool_backpressure (n : ℕ) (s : PoolState) (h : PoolReachable n s) :
    s.queued ≤ n ∧ s.running ≤ n ∧
      (PoolStep n s ⟨s.queued + 1, s.running⟩ ↔ s.queued < n) := by
  have inv : s.queued ≤ n ∧ s.running ≤ n := by
    induction h with
    | refl => exact ⟨Nat.zero_le n, Nat.zero_le n⟩
    | tail h1 h2 ih =>
      cases h2 with
      | submit hq => exact ⟨hq, ih.2⟩
      | start hr => exact ⟨Nat.le_of_succ_le ih.1, hr⟩
      | finish => exact ⟨ih.1, Nat.le_of_succ_le ih.2⟩
  refine ⟨inv.1, inv.2, ?_, ?_⟩
  · intro hstep
    cases hstep
    all_goals simp_all
  · intro hq
    exact PoolStep.submit hq

/-- C6: the handler installed in `main` applies its stages in the fixed
order rate limiting, IP filtering (blacklist before whitelist),
body-size capping, dispatch, each rejecting stage short-circuiting the
rest; in particular a rate-limited request from a blacklisted IP gets
429, not 403. -/
theorem c6_pipeline_fixed_order (cfg : GoConfig) (t : Table) (now : ℚ)
    (st : LimiterRegistry) (r : Request) :
    pipeline cfg t now st r = pipelineStaged cfg t now st r ∧
    (∀ ip port, splitHostPort r.remoteAddr = some (ip, port) →
      ((getRateLimiter cfg now st ip).1.bucket.allow now).1 = false →
      cfg.blacklistIPs.contains ip = true →
      (pipeline cfg t now st r).1 = .error 429) := by
  have key : pipeline cfg t now st r = pipelineStaged cfg t now st r := by
    unfold pipeline pipelineStaged rateLimitMiddleware ipFilterMiddleware
      limitRequestSizeMiddleware proxyHandler
    cases hs : splitHostPort r.remoteAddr with
    | none => rfl
    | some pr =>
      obtain ⟨ip, port⟩ := pr
      simp only [hs]
      cases ha : ((getRateLimiter cfg now st ip).1.bucket.allow now).1 with
      | false => simp [ha]
      | true =>
        by_cases hbl : ip ∈ cfg.blacklistIPs
        · simp [ha, hbl]
        · by_cases hwl : ip ∈ cfg.whitelistIPs
          · cases hl : lookupDomain t r.host with
            | none => simp [ha, hbl, hwl, hl]
            | some entry => simp [ha, hbl, hwl, hl]
          · simp [ha, hbl, hwl]
  refine ⟨key, ?_⟩
  intro ip port hs ha _
  rw [key]
  unfold pipelineStaged
  rw [hs]
  simp [ha]

/-- Witness for C6 at a concrete input: the client `1.2.3.4` is
blacklisted and its limiter's bucket is exhausted; the pipeline answers
429, not 403. -/
theorem c6_pipeline_fixed_order_witness :
    (pipeline ⟨1, 5, 10, ["1.2.3.4"], ["1.2.3.4"]⟩ [] 0
        ⟨[("1.2.3.4", ⟨0, ⟨1, 5, 0, 0⟩⟩)], 1⟩
        ⟨⟨"http", "x", "/", ""⟩, [], [], "d", "1.2.3.4:80", none⟩).1 = .error 429 :=
  (c6_pipeline_fixed_order ⟨1, 5, 10, ["1.2.3.4"], ["1.2.3.4"]⟩ [] 0
      ⟨[("1.2.3.4", ⟨0, ⟨1, 5, 0, 0⟩⟩)], 1⟩
      ⟨⟨"http", "x", "/", ""⟩, [], [], "d", "1.2.3.4:80", none⟩).2
    "1.2.3.4" "80" (by decide) (by decide) (by decide)

/-- Witness for C9 at a concrete input: the freshly initialized pool of
`initWorkerPool(100)` is reachable and satisfies the bounds. -/
theorem c9_pool_backpressure_witness :
    (⟨0, 0⟩ : PoolState).queued ≤ mainPoolSize ∧
    (⟨0, 0⟩ : PoolState).running ≤ mainPoolSize ∧
    (PoolStep mainPoolSize ⟨0, 0⟩ ⟨(⟨0, 0⟩ : PoolState).queued + 1, (⟨0, 0⟩ : PoolState).running⟩
      ↔ (⟨0, 0⟩ : PoolState).queued < mainPoolSize) :=
  c9_pool_backpressure mainPoolSize ⟨0, 0⟩ Relation.ReflTransGen.refl

end CoffeeProxy
